import Mathlib

/-!
Shallow embedding of the `Suggest` autocomplete widget (`src/unnamed/part_002`)
of the IdahoStatePolice/CDN repository, together with the registry of live
instances and the `search.ajax` factory.  The widget's DOM state is modelled
as explicit record state; the single-threaded event loop (input events,
debounce-timer fires, promise resolutions of in-flight searches, teardown)
is modelled as a step function over a system state.
-/

namespace Suggest

/-- The payload of one child element of the list container: either a rendered
suggestion item (carrying `suggestItem` raw value, `title` label and
`innerHTML` markup produced in `updateList`) or the error element inserted by
`showError` (carrying the error message text node). -/
inductive ChildData (α : Type) where
  | item (raw : α) (label : String) (markup : String)
  | error (msg : String)
deriving DecidableEq

/-- One child element of the list container, with its `hover` and `active`
CSS-class marks. -/
structure Child (α : Type) where
  data : ChildData α
  hover : Bool
  active : Bool
deriving DecidableEq

/-- The per-instance settings that affect the modelled behaviour
(`Suggest.#settings` after `Object.assign` with the defaults).  Callbacks
`selectFn` / `clearFn` / `enterFn` / `searchFn` are modelled through event
logs in the state rather than as functions; `hasEnterFn` records whether an
`enterFn` was configured (`undefined` by default). -/
structure SuggestConfig (α : Type) where
  minLength : Nat
  debounce : Nat
  labelFn : α → String
  markFn : String → String → α → String
  hasEnterFn : Bool

/-- The observable state of one `Suggest` instance.

`spinnerVisible` — Modelled from the spec: `Spinner.js` is imported by the
source but is not under `src/`; per the spec the spinner is the "searching
indicator", specified only at its interface boundary (`show` makes it
visible, `hide` clears it, `destroy` removes it), so it is modelled as a
boolean toggle.

The callback logs record invocations of the consumer callbacks:
`clearLog` counts `clearFn` calls; `selectLog` records each
`selectFn(item, itemEl)` call as the raw item and the index of the rendered
element; `enterLog` records each `enterFn(item, itemEl)` call as the
optional raw item (`none` for an `undefined` `suggestItem`) and the optional
element index. -/
structure SuggestState (α : Type) where
  inputValue : String
  children : List (Child α)
  shown : Bool
  spinnerVisible : Bool
  timeoutId : Option Nat
  clearLog : Nat
  selectLog : List (α × Nat)
  enterLog : List (Option α × Option Nat)
deriving DecidableEq

/-- `suggestItem` of the child element at index `i`: the raw value for an
item element, `none` for a missing index or for the error element (whose
`suggestItem` property is `undefined` in the source). -/
def rawAt (cs : List (Child α)) (i : Nat) : Option α :=
  match cs[i]? with
  | some c =>
    match c.data with
    | .item r _ _ => some r
    | .error _ => none
  | none => none

/-- `show()`: positions and shows the list unless it has no children
(`if (this.#listEl.children.length === 0) return;`). -/
def showList (st : SuggestState α) : SuggestState α :=
  if st.children.isEmpty then st else { st with shown := true }

/-- `hide()`: removes the `show` class. -/
def hide (st : SuggestState α) : SuggestState α :=
  { st with shown := false }

/-- `clear()`: hides the list, empties the field value and the list children,
and invokes `clearFn`. -/
def clear (st : SuggestState α) : SuggestState α :=
  let st := hide st
  { st with inputValue := "", children := [], clearLog := st.clearLog + 1 }

/-- `showError(suggest, error)` (local function of `refresh`): hides the
list, empties it, inserts the error-element template, appends the error's
message as a text node, and shows the list again. -/
def showError (st : SuggestState α) (msg : String) : SuggestState α :=
  let st := hide st
  let st := { st with children := [⟨ChildData.error msg, false, false⟩] }
  showList st

/-- `updateList(suggest, list)` (local function of `refresh`): builds one
item element per raw item, with `innerHTML` from `markFn(query, label, item)`
(the source passes the item as a third argument), `title` from `labelFn`, and
`suggestItem` set to the raw item; note each element is created fresh, so it
carries no `hover`/`active` class. -/
def buildChildren (cfg : SuggestConfig α) (q : String) (l : List α) : List (Child α) :=
  l.map (fun it => ⟨ChildData.item it (cfg.labelFn it) (cfg.markFn q (cfg.labelFn it) it),
                    false, false⟩)

/-- The rest of `updateList`: a non-empty fragment replaces the children and
shows the list; an empty one hides the list and empties it. -/
def updateList (cfg : SuggestConfig α) (st : SuggestState α) (l : List α) : SuggestState α :=
  let cs := buildChildren cfg st.inputValue l
  if cs.isEmpty then
    let st := hide st
    { st with children := [] }
  else
    showList { st with children := cs }

/-- Result of the synchronous prefix of `refresh()` (everything up to the
`await` of `searchFn`). -/
inductive RefreshStartResult (α : Type) where
  | cleared (st : SuggestState α)
  | tooShort (st : SuggestState α)
  | dispatched (st : SuggestState α) (query : String)
deriving DecidableEq

/-- The synchronous prefix of `refresh()`: an empty value runs `clear()` and
hides the spinner and returns; a value shorter than `minLength` just returns;
otherwise the spinner is shown and the current value is captured as the
query for a `searchFn` dispatch. -/
def refreshStart (cfg : SuggestConfig α) (st : SuggestState α) : RefreshStartResult α :=
  if st.inputValue = "" then
    let st := clear st
    .cleared { st with spinnerVisible := false }
  else if st.inputValue.length < cfg.minLength then
    .tooShort st
  else
    .dispatched { st with spinnerVisible := true } st.inputValue

/-- The continuation of `refresh()` after the awaited `searchFn` call settles
with `result`, where `query` is the value captured at dispatch time.  On
success, if the field's value no longer equals the captured query the
function returns at once (rendering nothing and leaving the spinner alone);
otherwise it rebuilds the list and hides the spinner.  On failure it always
runs `showError` and hides the spinner. -/
def refreshResolve (cfg : SuggestConfig α) (st : SuggestState α) (query : String)
    (result : Except String (List α)) : SuggestState α :=
  match result with
  | .ok l =>
    if st.inputValue ≠ query then st
    else
      let st := updateList cfg st l
      { st with spinnerVisible := false }
  | .error msg =>
    let st := showError st msg
    { st with spinnerVisible := false }

/-- Replace the element at index `i` by `f` of it, leaving every other index
alone (`classList` mutation of a single child element). -/
def updAt (f : Child α → Child α) : Nat → List (Child α) → List (Child α)
  | _, [] => []
  | 0, c :: cs => f c :: cs
  | n + 1, c :: cs => c :: updAt f n cs

/-- Index of the first child carrying a given class mark
(`this.#listEl.querySelector('.hover')` / `('.active')` in child order). -/
def firstIdx (p : Child α → Bool) : List (Child α) → Option Nat
  | [] => none
  | c :: cs => if p c then some 0 else (firstIdx p cs).map (· + 1)

/-- `focusedEl || activeEl`: the first `.hover` child, or failing that the
first `.active` child. -/
def currentIdx (cs : List (Child α)) : Option Nat :=
  match firstIdx (·.hover) cs with
  | some i => some i
  | none => firstIdx (·.active) cs

/-- Keyboard direction of a `#moveHover` call (`ArrowDown` uses
`nextElementSibling` / `firstElementChild`, `ArrowUp` uses
`previousElementSibling` / `lastElementChild`). -/
inductive Dir where
  | down
  | up
deriving DecidableEq

/-- `currentEl ? currentEl[currentProp] || this.#listEl[listProp]
: this.#listEl[listProp]`: the index the hover mark moves to, for a list of
`n` children and current index `cur`. -/
def nextIdx (dir : Dir) (n : Nat) : Option Nat → Nat
  | some i =>
    match dir with
    | .down => if i + 1 < n then i + 1 else 0
    | .up => if i = 0 then n - 1 else i - 1
  | none =>
    match dir with
    | .down => 0
    | .up => n - 1

/-- `#moveHover`: removes the `hover` class from the current element (if
any) and adds it to the next one.  The empty-children case is unreachable
from `#handleKeyEvent` (the list is only shown while non-empty); there the
source would dereference a null `nextEl`, and the model returns the state
unchanged. -/
def moveHover (dir : Dir) (st : SuggestState α) : SuggestState α :=
  if st.children.isEmpty then st
  else
    let cur := currentIdx st.children
    let nxt := nextIdx dir st.children.length cur
    let cs :=
      match cur with
      | some i => updAt (fun c => { c with hover := false }) i st.children
      | none => st.children
    { st with children := updAt (fun c => { c with hover := true }) nxt cs }

/-- The target of a `#select` call: the JS argument is `null`/`undefined`,
the list container element itself, or the child element at an index. -/
inductive SelectTarget where
  | null
  | container
  | child (i : Nat)
deriving DecidableEq

/-- `#select(itemEl)`: a no-op for a null target or the list container; for
an item element it sets the field's value to `labelFn(itemEl.suggestItem)`,
removes `active`/`hover` from every child, adds `active` to the target,
hides the list, and invokes `selectFn(itemEl.suggestItem, itemEl)`.
Committing the error element (whose `suggestItem` is `undefined`) is outside
the modelled behaviour — the source would pass `undefined` into `labelFn` —
and no modelled call site reaches it with the claims' hypotheses. -/
def select (cfg : SuggestConfig α) (st : SuggestState α) (t : SelectTarget) : SuggestState α :=
  match t with
  | .null => st
  | .container => st
  | .child i =>
    match rawAt st.children i with
    | some r =>
      let cs := st.children.map (fun c => { c with hover := false, active := false })
      let cs := updAt (fun c => { c with active := true }) i cs
      { st with inputValue := cfg.labelFn r, children := cs, shown := false,
                selectLog := st.selectLog ++ [(r, i)] }
    | none => st

/-- The argument pair `(currentEl?.suggestItem, currentEl)` handed to a
configured `enterFn`. -/
def enterArg (cs : List (Child α)) : Option α × Option Nat :=
  match currentIdx cs with
  | some i => (rawAt cs i, some i)
  | none => (none, none)

/-- `#findSelectedEl(e)`: prevents the key's default effect, then either
invokes the configured `enterFn` (for `Enter`) with the current
hovered-or-active element, or selects the current element, falling back to
the list's first child (`currentEl || this.#listEl.firstElementChild`).
Returns the new state and whether the default effect was suppressed. -/
def findSelectedEl (cfg : SuggestConfig α) (st : SuggestState α) (isEnter : Bool) :
    SuggestState α × Bool :=
  if isEnter && cfg.hasEnterFn then
    ({ st with enterLog := st.enterLog ++ [enterArg st.children] }, true)
  else
    match currentIdx st.children with
    | some i => (select cfg st (.child i), true)
    | none =>
      if st.children.isEmpty then (select cfg st .null, true)
      else (select cfg st (.child 0), true)

/-- The keys recognised by `#handleKeyEvent`; `other` stands for any other
key. -/
inductive Key where
  | arrowDown
  | arrowUp
  | enter
  | tab
  | other
deriving DecidableEq

/-- `#handleKeyEvent(e)`: while the list is not shown, arrow keys call
`show()` and every key falls through with its default effect intact; while
shown, arrows move the hover mark (suppressing the default), `Enter`/`Tab`
go to `#findSelectedEl`, and other keys pass through.  Returns the new state
and whether the key's default effect was suppressed. -/
def handleKey (cfg : SuggestConfig α) (st : SuggestState α) (k : Key) :
    SuggestState α × Bool :=
  match st.shown, k with
  | false, .arrowDown => (showList st, false)
  | false, .arrowUp => (showList st, false)
  | false, .enter => (st, false)
  | false, .tab => (st, false)
  | false, .other => (st, false)
  | true, .arrowDown => (moveHover .down st, true)
  | true, .arrowUp => (moveHover .up st, true)
  | true, .enter => findSelectedEl cfg st true
  | true, .tab => findSelectedEl cfg st false
  | true, .other => (st, false)

/-- The system state of one live instance's event loop: the widget state,
the in-flight `searchFn` calls (promise id paired with the query captured at
dispatch), fresh-id sources for timers (browser timer ids are positive) and
searches, whether `destroy()` has run, and the log of queries with which
`searchFn` has been invoked. -/
structure EnvState (α : Type) where
  st : SuggestState α
  pending : List (Nat × String)
  nextTimerId : Nat
  nextSearchId : Nat
  destroyed : Bool
  searchLog : List String
deriving DecidableEq

/-- The events of the single-threaded event loop: a user edit of the field
(routed through `#debounceRefresh` while the wrapper and its listeners
exist), the firing of the armed debounce timer, the settling of an in-flight
`searchFn` promise, and `destroy()`. -/
inductive Event (α : Type) where
  | input (s : String)
  | timerFire
  | resolve (id : Nat) (r : Except String (List α))
  | destroy

/-- One event-loop step.

* `input s` sets the field's value; while the instance is live the `input`
  listener runs `#debounceRefresh`, which clears any armed timeout and arms
  a fresh one (after `destroy()` the wrapper holding the listener is gone,
  so only the value changes).
* `timerFire` is the armed timeout elapsing: the callback clears
  `#timeoutId` and awaits `refresh()`, whose synchronous prefix either
  clears, returns, or dispatches `searchFn` with the captured query,
  registering the in-flight promise.  `destroy()` never cancels this
  timeout, so the event is possible after teardown.
* `resolve id r` is an in-flight promise settling: the continuation of
  `refresh()` runs with the query captured for that dispatch.
* `destroy` tears the instance down (`spinner.destroy()` removes the
  indicator; `#timeoutId` and in-flight promises are left untouched). -/
def step (cfg : SuggestConfig α) (e : EnvState α) : Event α → EnvState α
  | .input s =>
    if e.destroyed then { e with st := { e.st with inputValue := s } }
    else
      { e with
        st := { e.st with inputValue := s, timeoutId := some e.nextTimerId },
        nextTimerId := e.nextTimerId + 1 }
  | .timerFire =>
    match e.st.timeoutId with
    | none => e
    | some _ =>
      let st0 := { e.st with timeoutId := none }
      match refreshStart cfg st0 with
      | .cleared st => { e with st := st }
      | .tooShort st => { e with st := st }
      | .dispatched st q =>
        { e with
          st := st,
          pending := e.pending ++ [(e.nextSearchId, q)],
          nextSearchId := e.nextSearchId + 1,
          searchLog := e.searchLog ++ [q] }
  | .resolve id r =>
    match e.pending.find? (fun p => p.1 == id) with
    | some (_, q) =>
      { e with
        pending := e.pending.filter (fun p => p.1 != id),
        st := refreshResolve cfg e.st q r }
    | none => e
  | .destroy =>
    { e with destroyed := true, st := { e.st with spinnerVisible := false } }

/-- Run a list of event-loop events. -/
def runEvents (cfg : SuggestConfig α) (e : EnvState α) (evs : List (Event α)) : EnvState α :=
  evs.foldl (step cfg) e

/-- A freshly constructed instance: empty field, no list children, spinner
hidden, no armed timer, no in-flight search. -/
def initEnv : EnvState α :=
  { st := { inputValue := "", children := [], shown := false, spinnerVisible := false,
            timeoutId := none, clearLog := 0, selectLog := [], enterLog := [] },
    pending := [], nextTimerId := 1, nextSearchId := 1, destroyed := false,
    searchLog := [] }

end Suggest

namespace SuggestRegistry

/-- The module-level registry state: `Suggest.#initializedEls` as an ordered
association list from input-element id to instance id, whether the shared
`document`-level click listener is installed, the instance ids on which
`destroy()` has run, a fresh instance-id source, and the count of
`console.error` calls. -/
structure RegState where
  regMap : List (Nat × Nat)
  docListener : Bool
  destroyedInsts : List Nat
  nextInst : Nat
  errLog : Nat
deriving DecidableEq

/-- First instance id bound to element `el` in the registry. -/
def lookupEl (m : List (Nat × Nat)) (el : Nat) : Option Nat :=
  match m.find? (fun p => p.1 == el) with
  | some p => some p.2
  | none => none

/-- The registry effect of `destroy()` on the instance bound to `el`:
`Suggest.#initializedEls.delete(this.#inputEl)` and, if the map became
empty, removal of the shared document click listener.  The removed instance
ids are recorded as destroyed. -/
def destroyEl (s : RegState) (el : Nat) : RegState :=
  let removed := (s.regMap.filter (fun p => p.1 == el)).map (·.2)
  let r := s.regMap.filter (fun p => p.1 != el)
  { s with
    regMap := r,
    docListener := if r.isEmpty then false else s.docListener,
    destroyedInsts := s.destroyedInsts ++ removed }

/-- The registry-level operations: constructing a `Suggest` (with a null or
found element, and with a valid or invalid `searchFn` option) and calling
`destroy()` on the instance bound to an element. -/
inductive RegOp where
  | construct (el : Option Nat) (validSearch : Bool)
  | destroy (el : Nat)

/-- The registry effect of one operation, following the constructor's order:
a null element (`document.querySelector` miss or a null argument) logs an
error and returns before anything else; otherwise an instance already bound
to the element is destroyed first; a non-function `searchFn` then logs an
error and returns without registering; otherwise the shared document click
listener is installed if the registry is empty, and the new instance is
registered. -/
def applyReg (s : RegState) : RegOp → RegState
  | .construct none _ => { s with errLog := s.errLog + 1 }
  | .construct (some el) validSearch =>
    let s :=
      match lookupEl s.regMap el with
      | some _ => destroyEl s el
      | none => s
    if validSearch = false then { s with errLog := s.errLog + 1 }
    else
      let s := if s.regMap.isEmpty then { s with docListener := true } else s
      { s with regMap := s.regMap ++ [(el, s.nextInst)], nextInst := s.nextInst + 1 }
  | .destroy el => destroyEl s el

/-- The page starts with no instance and no shared listener. -/
def initReg : RegState :=
  { regMap := [], docListener := false, destroyedInsts := [], nextInst := 0, errLog := 0 }

/-- Run a list of registry operations from the initial state. -/
def runReg (ops : List RegOp) : RegState :=
  ops.foldl applyReg initReg

end SuggestRegistry

namespace SuggestSearch

/-- What the `search.ajax`-built `searchFn` observes of the settled `fetch`:
whether the response was redirected, its final URL, its `ok` flag, and its
parsed JSON body (an array of items or anything else). -/
structure FetchResponse (α : Type) where
  redirected : Bool
  url : String
  ok : Bool
  body : Option (List α)

/-- JS `String.prototype.endsWith` (the suffix test `result.url.endsWith(loginUrlEndsWith)`),
modelled as a suffix check on the character lists (Lean's own
`String.endsWith` is extensionally the same test but is defined by
well-founded recursion over byte positions and does not kernel-reduce). -/
def endsWithS (s pat : String) : Bool :=
  pat.data.isSuffixOf s.data

/-- The `searchFn` built by `search.ajax(buildUrlFn, loginUrlEndsWith)`, as a
function of the fetched response: a redirect to a URL ending in
`loginUrlEndsWith` rejects with "You have been logged out."; any other
redirect or non-ok response, and a non-array JSON body, reject with "There
was a problem with the server."; otherwise the array is returned. -/
def ajaxResult (loginUrlEndsWith : String) (r : FetchResponse α) : Except String (List α) :=
  if r.redirected && endsWithS r.url loginUrlEndsWith then
    .error "You have been logged out."
  else if r.redirected || !r.ok then
    .error "There was a problem with the server."
  else
    match r.body with
    | some l => .ok l
    | none => .error "There was a problem with the server."

end SuggestSearch

open Suggest SuggestRegistry SuggestSearch

/-- A concrete settings object mirroring the defaults for item type
`String`: `minLength: 1`, `debounce: 250`, identity `labelFn`,
label-returning `markFn`, no `enterFn`. -/
def cfgS : SuggestConfig String :=
  { minLength := 1, debounce := 250, labelFn := id, markFn := fun _ l _ => l,
    hasEnterFn := false }

/-- `cfgS` with an `enterFn` configured. -/
def cfgE : SuggestConfig String :=
  { cfgS with hasEnterFn := true }

/-- `cfgS` with `minLength: 3`. -/
def cfgMin3 : SuggestConfig String :=
  { cfgS with minLength := 3 }

/-- A state whose field holds "ab" while a one-item list is rendered, used
against a `minLength` of 3. -/
def stShort : SuggestState String :=
  { inputValue := "ab", children := [⟨ChildData.item "aa" "aa" "aa", false, false⟩],
    shown := true, spinnerVisible := false, timeoutId := none, clearLog := 0,
    selectLog := [], enterLog := [] }

/-- An open three-item list `[a, b, c]` with no hover and no active mark. -/
def stABC : SuggestState String :=
  { inputValue := "a",
    children := [⟨ChildData.item "a" "a" "a", false, false⟩,
                 ⟨ChildData.item "b" "b" "b", false, false⟩,
                 ⟨ChildData.item "c" "c" "c", false, false⟩],
    shown := true, spinnerVisible := false, timeoutId := none, clearLog := 0,
    selectLog := [], enterLog := [] }

/-- An open three-item list with no hover but with the `active` mark on the
middle item (a previously committed selection). -/
def stActiveMid : SuggestState String :=
  { stABC with
    children := [⟨ChildData.item "a" "a" "a", false, false⟩,
                 ⟨ChildData.item "b" "b" "b", false, true⟩,
                 ⟨ChildData.item "c" "c" "c", false, false⟩] }

/-- The event trace of the ABA race: dispatch A for query "a", edit to "ab"
and back to "a", dispatch B for the same query "a", then B's promise
resolves first with result `["y"]`. -/
def traceABA : List (Event String) :=
  [Event.input "a", Event.timerFire, Event.input "ab", Event.input "a",
   Event.timerFire, Event.resolve 2 (Except.ok ["y"])]

/-- A live instance with one in-flight search for query "b" while the field
has moved on to "a". -/
def envStale : EnvState String :=
  { (initEnv : EnvState String) with
    st := { (initEnv : EnvState String).st with inputValue := "a" },
    pending := [(1, "b")], nextSearchId := 2 }

namespace Suggest

/-! Helper lemmas about the list-manipulation primitives. -/

theorem updAt_getElem? (f : Child α → Child α) (i : Nat) (cs : List (Child α)) (j : Nat) :
    (updAt f i cs)[j]? = if j = i then cs[j]?.map f else cs[j]? := by
  induction cs generalizing i j with
  | nil => simp [updAt]
  | cons c tl ih =>
    cases i with
    | zero =>
      cases j with
      | zero => simp [updAt]
      | succ j => simp [updAt]
    | succ i =>
      cases j with
      | zero => simp [updAt]
      | succ j =>
        simp only [updAt, List.getElem?_cons_succ, ih]
        by_cases h : j = i <;> simp [h]

theorem updAt_length (f : Child α → Child α) (i : Nat) (cs : List (Child α)) :
    (updAt f i cs).length = cs.length := by
  induction cs generalizing i with
  | nil => simp [updAt]
  | cons c tl ih =>
    cases i with
    | zero => simp [updAt]
    | succ i => simpa [updAt] using ih i

theorem firstIdx_lt (p : Child α → Bool) (cs : List (Child α)) (i : Nat)
    (h : firstIdx p cs = some i) : i < cs.length := by
  induction cs generalizing i with
  | nil => simp [firstIdx] at h
  | cons c tl ih =>
    by_cases hp : p c
    · simp only [firstIdx, hp, if_true, Option.some_inj] at h
      simp [← h]
    · simp only [firstIdx, hp, if_false] at h
      cases htl : firstIdx p tl with
      | none => rw [htl] at h; simp at h
      | some i' =>
        rw [htl] at h
        simp at h
        have := ih i' htl
        simp only [List.length_cons]
        omega

theorem firstIdx_none_of_all (p : Child α → Bool) (cs : List (Child α))
    (h : cs.all (fun c => !p c) = true) : firstIdx p cs = none := by
  induction cs with
  | nil => rfl
  | cons c tl ih =>
    simp only [List.all_cons, Bool.and_eq_true, Bool.not_eq_true'] at h
    simp [firstIdx, h.1, ih h.2]

theorem all_of_getElem? (q : Child α → Bool) (cs : List (Child α)) (j : Nat) (c : Child α)
    (hall : cs.all q = true) (hj : cs[j]? = some c) : q c = true := by
  have hmem : c ∈ cs := by
    have := List.getElem?_eq_some.mp hj
    obtain ⟨hlt, rfl⟩ := this
    exact List.getElem_mem _
  exact (List.all_eq_true.mp hall) c hmem

theorem firstIdx_of_pointwise (p : Child α → Bool) (cs : List (Child α)) (i : Nat)
    (h : ∀ j c, cs[j]? = some c → p c = decide (j = i)) (hi : i < cs.length) :
    firstIdx p cs = some i := by
  induction cs generalizing i with
  | nil => simp at hi
  | cons c tl ih =>
    cases i with
    | zero =>
      have := h 0 c (by simp)
      simp at this
      simp [firstIdx, this]
    | succ i =>
      have hc := h 0 c (by simp)
      simp at hc
      have htl : firstIdx p tl = some i := by
        refine ih i (fun j d hd => ?_) (by simpa using hi)
        have := h (j + 1) d (by simpa using hd)
        simpa [Nat.succ_inj] using this
      simp [firstIdx, hc, htl]

end Suggest

namespace Suggest

theorem nextIdx_lt (dir : Dir) (n : Nat) (cur : Option Nat) (hn : 0 < n)
    (hcur : ∀ i, cur = some i → i < n) : nextIdx dir n cur < n := by
  cases cur with
  | none =>
    cases dir with
    | down => simpa [nextIdx] using hn
    | up => simp only [nextIdx]; omega
  | some i =>
    have hi := hcur i rfl
    cases dir with
    | down =>
      simp only [nextIdx]
      by_cases h : i + 1 < n
      · simp [h]
      · simp only [h, if_false]
        omega
    | up =>
      simp only [nextIdx]
      by_cases h : i = 0
      · simp only [h, if_pos]
        omega
      · simp only [h, if_false]
        omega

theorem moveHover_length (dir : Dir) (st : SuggestState α) :
    (moveHover dir st).children.length = st.children.length := by
  unfold moveHover
  by_cases h : st.children.isEmpty
  · simp [h]
  · simp only [h, Bool.false_eq_true, if_false]
    cases hc : currentIdx st.children <;> simp [updAt_length]

/-- Pointwise hover state after `#moveHover`: provided no child other than
the current one carries the hover mark, the hover mark afterwards sits
exactly on the computed next index. -/
theorem moveHover_hover (dir : Dir) (st : SuggestState α)
    (hne : st.children.isEmpty = false)
    (hoth : ∀ j c, st.children[j]? = some c →
      currentIdx st.children ≠ some j → c.hover = false) :
    ∀ j c, (moveHover dir st).children[j]? = some c →
      c.hover = decide (j = nextIdx dir st.children.length (currentIdx st.children)) := by
  intro j c hc
  unfold moveHover at hc
  rw [hne] at hc
  simp only [Bool.false_eq_true, if_false] at hc
  cases hcur : currentIdx st.children with
  | none =>
    rw [hcur] at hc
    simp only [updAt_getElem?] at hc
    by_cases hj : j = nextIdx dir st.children.length none
    · rw [if_pos hj] at hc
      cases horig : st.children[j]? with
      | none => rw [horig] at hc; simp at hc
      | some c0 =>
        rw [horig] at hc
        simp only [Option.map_some', Option.some_inj] at hc
        simp [← hc, hj]
    · rw [if_neg hj] at hc
      have hcf := hoth j c hc (by rw [hcur]; simp)
      simp [hcf, hj]
  | some i =>
    rw [hcur] at hc
    simp only [updAt_getElem?] at hc
    by_cases hj : j = nextIdx dir st.children.length (some i)
    · rw [if_pos hj] at hc
      by_cases hji : j = i
      · rw [if_pos hji] at hc
        cases horig : st.children[j]? with
        | none => rw [horig] at hc; simp at hc
        | some c0 =>
          rw [horig] at hc
          simp only [Option.map_some', Option.map_some', Option.some_inj] at hc
          simp [← hc, hj]
      · rw [if_neg hji] at hc
        cases horig : st.children[j]? with
        | none => rw [horig] at hc; simp at hc
        | some c0 =>
          rw [horig] at hc
          simp only [Option.map_some', Option.some_inj] at hc
          simp [← hc, hj]
    · rw [if_neg hj] at hc
      by_cases hji : j = i
      · rw [if_pos hji] at hc
        cases horig : st.children[j]? with
        | none => rw [horig] at hc; simp at hc
        | some c0 =>
          rw [horig] at hc
          simp only [Option.map_some', Option.some_inj] at hc
          simp [← hc, hj]
      · rw [if_neg hji] at hc
        have hcf := hoth j c hc
          (by rw [hcur]; exact fun hcon => hji (Option.some_inj.mp hcon).symm)
        simp [hcf, hj]

/-- Every field of the state other than `children` is untouched by
`#moveHover`. -/
theorem moveHover_fields (dir : Dir) (st : SuggestState α) :
    (moveHover dir st).inputValue = st.inputValue
    ∧ (moveHover dir st).shown = st.shown
    ∧ (moveHover dir st).selectLog = st.selectLog
    ∧ (moveHover dir st).enterLog = st.enterLog := by
  unfold moveHover
  by_cases h : st.children.isEmpty <;> simp [h]

/-- The effect of `#select` on an item child at index `i`. -/
theorem select_child_spec (cfg : SuggestConfig α) (st : SuggestState α) (i : Nat)
    (r : α) (lab mk : String) (hv av : Bool)
    (hget : st.children[i]? = some ⟨ChildData.item r lab mk, hv, av⟩) :
    (select cfg st (.child i)).inputValue = cfg.labelFn r
    ∧ (select cfg st (.child i)).shown = false
    ∧ (select cfg st (.child i)).selectLog = st.selectLog ++ [(r, i)]
    ∧ (select cfg st (.child i)).children[i]? = some ⟨ChildData.item r lab mk, false, true⟩
    ∧ (∀ j, j ≠ i → (select cfg st (.child i)).children[j]?
        = st.children[j]?.map (fun c => { c with hover := false, active := false }))
    ∧ (select cfg st (.child i)).enterLog = st.enterLog
    ∧ (select cfg st (.child i)).clearLog = st.clearLog := by
  have hraw : rawAt st.children i = some r := by
    unfold rawAt
    rw [hget]
  simp only [select, hraw]
  refine ⟨trivial, trivial, trivial, ?_, ?_, trivial, trivial⟩
  · simp [updAt_getElem?, hget]
  · intro j hj
    simp [updAt_getElem?, hj]

end Suggest
namespace Suggest

/-- Keystrokes alone never dispatch a search, never settle one, and keep the
instance live; each one hands a fresh timer id out. -/
theorem runInputs_keep (cfg : SuggestConfig α) :
    ∀ (ss : List String) (e : EnvState α), e.destroyed = false →
      (runEvents cfg e (ss.map Event.input)).destroyed = false
      ∧ (runEvents cfg e (ss.map Event.input)).searchLog = e.searchLog
      ∧ (runEvents cfg e (ss.map Event.input)).pending = e.pending
      ∧ (runEvents cfg e (ss.map Event.input)).nextTimerId = e.nextTimerId + ss.length := by
  intro ss
  induction ss with
  | nil => intro e hd; simp [runEvents, hd]
  | cons s tl ih =>
    intro e hd
    have hstep : step cfg e (Event.input s)
        = { e with
            st := { e.st with inputValue := s, timeoutId := some e.nextTimerId },
            nextTimerId := e.nextTimerId + 1 } := by
      simp [step, hd]
    have := ih (step cfg e (Event.input s)) (by rw [hstep]; exact hd)
    simp only [List.map_cons, runEvents, List.foldl_cons] at *
    rw [hstep] at this ⊢
    refine ⟨this.1, this.2.1, this.2.2.1, ?_⟩
    rw [this.2.2.2]
    simp
    omega

end Suggest

namespace SuggestRegistry

/-- The registry invariant: the shared document listener is installed
exactly while the registry is non-empty, and no element is bound twice. -/
def RegInv (s : RegState) : Prop :=
  s.docListener = !s.regMap.isEmpty ∧ (s.regMap.map Prod.fst).Nodup

theorem regInv_init : RegInv initReg := by
  constructor <;> simp [initReg]

theorem regInv_destroyEl (s : RegState) (el : Nat) (h : RegInv s) :
    RegInv (destroyEl s el) := by
  obtain ⟨hdoc, hnd⟩ := h
  constructor
  · simp only [destroyEl]
    cases hr : (s.regMap.filter (fun p => p.1 != el)).isEmpty
    · simp only [hr, Bool.not_false, if_neg]
      rw [hdoc]
      cases hm : s.regMap.isEmpty
      · simp
      · rw [List.isEmpty_iff] at hm
        rw [hm] at hr
        simp at hr
    · simp [hr]
  · simp only [destroyEl]
    exact (hnd.sublist (List.Sublist.map _ (List.filter_sublist _)))

theorem lookupEl_mem (m : List (Nat × Nat)) (el i : Nat)
    (h : lookupEl m el = some i) : (el, i) ∈ m := by
  unfold lookupEl at h
  cases hf : m.find? (fun p => p.1 == el) with
  | none => rw [hf] at h; simp at h
  | some p =>
    rw [hf] at h
    simp only [Option.some_inj] at h
    have hp := List.find?_some hf
    have hm := List.mem_of_find?_eq_some hf
    simp only [beq_iff_eq] at hp
    have : p = (el, i) := by
      cases p
      simp_all
    rw [← this]
    exact hm

theorem lookupEl_none (m : List (Nat × Nat)) (el : Nat)
    (h : m.find? (fun p => p.1 == el) = none) : el ∉ m.map Prod.fst := by
  intro hmem
  obtain ⟨p, hp, hfst⟩ := List.mem_map.mp hmem
  have := List.find?_eq_none.mp h p hp
  simp [hfst] at this

theorem regInv_applyReg (s : RegState) (op : RegOp) (h : RegInv s) :
    RegInv (applyReg s op) := by
  cases op with
  | destroy el => exact regInv_destroyEl s el h
  | construct elOpt valid =>
    cases elOpt with
    | none =>
      obtain ⟨hdoc, hnd⟩ := h
      exact ⟨hdoc, hnd⟩
    | some el =>
      simp only [applyReg]
      have h1 : RegInv (match lookupEl s.regMap el with
          | some _ => destroyEl s el
          | none => s) := by
        cases hl : lookupEl s.regMap el with
        | none => exact h
        | some i => exact regInv_destroyEl s el h
      have hfree : el ∉ ((match lookupEl s.regMap el with
          | some _ => destroyEl s el
          | none => s).regMap.map Prod.fst) := by
        cases hl : lookupEl s.regMap el with
        | none =>
          simp only
          unfold lookupEl at hl
          cases hf : s.regMap.find? (fun p => p.1 == el) with
          | none => exact lookupEl_none s.regMap el hf
          | some p => rw [hf] at hl; simp at hl
        | some i =>
          simp only [destroyEl]
          intro hmem
          obtain ⟨p, hp, hfst⟩ := List.mem_map.mp hmem
          have := List.of_mem_filter hp
          simp [hfst] at this
      revert h1 hfree
      generalize (match lookupEl s.regMap el with
          | some _ => destroyEl s el
          | none => s) = s1
      intro h1 hfree
      obtain ⟨hdoc1, hnd1⟩ := h1
      cases valid with
      | false => exact ⟨hdoc1, hnd1⟩
      | true =>
        simp only [Bool.false_eq_true, if_neg, if_false, Bool.not_eq_false]
        cases hm : s1.regMap.isEmpty with
        | true =>
          rw [List.isEmpty_iff] at hm
          constructor
          · simp [hm]
          · simp [hm]
        | false =>
          simp only [hm, Bool.false_eq_true, if_false]
          constructor
          · rw [hdoc1, hm]
            have : (s1.regMap ++ [(el, s1.nextInst)]).isEmpty = false := by
              simp [List.isEmpty_iff]
            rw [this]
          · rw [List.map_append]
            refine List.Nodup.append hnd1 (by simp) ?_
            intro a ha hb
            simp only [List.map_cons, List.map_nil, List.mem_singleton] at hb
            rw [hb] at ha
            exact hfree ha

theorem regInv_run (ops : List RegOp) : RegInv (runReg ops) := by
  unfold runReg
  have : ∀ (l : List RegOp) (s : RegState), RegInv s → RegInv (l.foldl applyReg s) := by
    intro l
    induction l with
    | nil => intro s hs; exact hs
    | cons op tl ih => intro s hs; exact ih _ (regInv_applyReg s op hs)
  exact this ops initReg regInv_init

end SuggestRegistry

open Suggest SuggestRegistry SuggestSearch

/-! Claim theorems. -/

/-- C1 (amended): a dispatched search that resolves successfully renders its
result list only when the field's value at resolution time equals the query
captured at dispatch time byte-for-byte; otherwise the widget state is left
entirely unchanged and only the resolved promise itself leaves the in-flight
set — no newer in-flight search is cancelled.  (The claim's "in particular"
consequence needs the additional hypothesis that the field's value at the
stale resolution differs from the stale dispatch's captured query; see the
counterexample for two dispatches that share one query string.) -/
theorem C1_staleness_guard (cfg : SuggestConfig α) (e : EnvState α) (id : Nat)
    (q : String) (l : List α)
    (hp : e.pending.find? (fun p => p.1 == id) = some (id, q)) :
    (e.st.inputValue ≠ q →
      (step cfg e (Event.resolve id (Except.ok l))).st = e.st
      ∧ (step cfg e (Event.resolve id (Except.ok l))).pending
          = e.pending.filter (fun p => p.1 != id))
    ∧ (e.st.inputValue = q →
      (step cfg e (Event.resolve id (Except.ok l))).st.children = buildChildren cfg q l
      ∧ (step cfg e (Event.resolve id (Except.ok l))).st.shown = !l.isEmpty
      ∧ (step cfg e (Event.resolve id (Except.ok l))).st.spinnerVisible = false
      ∧ (step cfg e (Event.resolve id (Except.ok l))).pending
          = e.pending.filter (fun p => p.1 != id)) := by
  have hstep : step cfg e (Event.resolve id (Except.ok l))
      = { e with pending := e.pending.filter (fun p => p.1 != id),
                 st := refreshResolve cfg e.st q (Except.ok l) } := by
    simp [step, hp]
  constructor
  · intro hne
    rw [hstep]
    exact ⟨by simp [refreshResolve, hne], rfl⟩
  · intro heq
    rw [hstep]
    have hcond : ¬(e.st.inputValue ≠ q) := by simp [heq]
    cases l with
    | nil =>
      refine ⟨?_, ?_, ?_, rfl⟩ <;>
        simp [refreshResolve, if_neg hcond, updateList, buildChildren, hide]
    | cons x xs =>
      refine ⟨?_, ?_, ?_, rfl⟩ <;>
        simp [refreshResolve, if_neg hcond, updateList, buildChildren, showList, heq]

/-- C1 witness: a stale success (field moved from "b" to "a") is dropped
without touching the widget state. -/
theorem C1_staleness_guard_witness :
    (step cfgS envStale (Event.resolve 1 (Except.ok ["r"]))).st = envStale.st
    ∧ (step cfgS envStale (Event.resolve 1 (Except.ok ["r"]))).pending
        = envStale.pending.filter (fun p => p.1 != 1) :=
  (C1_staleness_guard cfgS envStale 1 "b" ["r"] (by decide)).1 (by decide)

/-- C1 counterexample (the "in particular" sentence as stated): dispatch A
(id 1) precedes dispatch B (id 2), both for query "a"; B's result `["y"]` is
rendered while the field still holds "a"; A's later resolution with `["x"]`
passes the byte-for-byte guard and replaces the rendered list. -/
theorem C1_staleness_cex :
    (runEvents cfgS initEnv traceABA).searchLog = ["a", "a"]
    ∧ (runEvents cfgS initEnv traceABA).pending = [(1, "a")]
    ∧ (runEvents cfgS initEnv traceABA).st.inputValue = "a"
    ∧ (runEvents cfgS initEnv traceABA).st.children
        = [⟨ChildData.item "y" "y" "y", false, false⟩]
    ∧ (runEvents cfgS initEnv (traceABA ++ [Event.resolve 1 (Except.ok ["x"])])).st.children
        = [⟨ChildData.item "x" "x" "x", false, false⟩] := by
  decide

/-- C2 (code bug): `destroy()` never clears `#timeoutId`.  After one input
event ("ab") arms the debounce timer and `destroy()` runs, the timer is
still armed (`some 1`), no search has been dispatched yet, and the timer's
later fire invokes `refresh()`, dispatching `searchFn("ab")` after
teardown — `destroy()` performs no `clearTimeout`. -/
theorem C2_destroy_timer_fires :
    (runEvents cfgS initEnv [Event.input "ab", Event.destroy]).destroyed = true
    ∧ (runEvents cfgS initEnv [Event.input "ab", Event.destroy]).st.timeoutId = some 1
    ∧ (runEvents cfgS initEnv [Event.input "ab", Event.destroy]).searchLog = []
    ∧ (runEvents cfgS initEnv [Event.input "ab", Event.destroy, Event.timerFire]).searchLog
        = ["ab"] := by
  decide

/-- C3 (amended): a refresh with a non-empty value shorter than `minLength`
returns with the state entirely unchanged — `searchFn` is not dispatched but
the list is *not* cleared; a refresh with an empty value runs `clear()`
(hiding the list, emptying the field and the children, invoking `clearFn`)
and hides the spinner, dispatching nothing. -/
theorem C3_short_query (cfg : SuggestConfig α) (st st' : SuggestState α)
    (h1 : st.inputValue ≠ "") (h2 : st.inputValue.length < cfg.minLength)
    (h3 : st'.inputValue = "") :
    refreshStart cfg st = RefreshStartResult.tooShort st
    ∧ refreshStart cfg st'
        = RefreshStartResult.cleared
            { st' with inputValue := "", children := [], shown := false,
                       spinnerVisible := false, clearLog := st'.clearLog + 1 } := by
  constructor
  · simp [refreshStart, h1, h2]
  · simp [refreshStart, h3, clear, hide]

/-- C3 witness: with `minLength: 3`, the field at "ab" with a one-item list
refreshes to an unchanged state; an empty field clears. -/
theorem C3_short_query_witness :
    refreshStart cfgMin3 stShort = RefreshStartResult.tooShort stShort
    ∧ refreshStart cfgMin3 (initEnv : EnvState String).st
        = RefreshStartResult.cleared
            { (initEnv : EnvState String).st with
              inputValue := "", children := [], shown := false,
              spinnerVisible := false,
              clearLog := (initEnv : EnvState String).st.clearLog + 1 } :=
  C3_short_query cfgMin3 stShort (initEnv : EnvState String).st
    (by decide) (by decide) (by decide)

/-- C3 counterexample (claim as stated): with `minLength: 3` and value "ab",
the refresh returns `tooShort` with the previously rendered one-item list
still present and still shown — the list is not cleared. -/
theorem C3_short_query_cex :
    refreshStart cfgMin3 stShort = RefreshStartResult.tooShort stShort
    ∧ stShort.children = [⟨ChildData.item "aa" "aa" "aa", false, false⟩]
    ∧ stShort.shown = true := by
  decide

/-- C4 (amended): keystrokes `ss ++ [v]` fired within the debounce interval
(modelled as no intervening timer-fire event) dispatch nothing themselves;
each rearms the single timer (the last arming holds timer id
`nextTimerId + ss.length`); when the timer then fires, exactly one
dispatch occurs, with the value `v` present after the last keystroke —
provided `v` is non-empty and at least `minLength` long — and the timer is
disarmed. -/
theorem C4_debounce_coalesce (cfg : SuggestConfig α) (e : EnvState α)
    (ss : List String) (v : String)
    (hd : e.destroyed = false) (hv : v ≠ "") (hlen : cfg.minLength ≤ v.length) :
    (runEvents cfg e ((ss ++ [v]).map Event.input)).searchLog = e.searchLog
    ∧ (runEvents cfg e ((ss ++ [v]).map Event.input)).st.inputValue = v
    ∧ (runEvents cfg e ((ss ++ [v]).map Event.input)).st.timeoutId
        = some (e.nextTimerId + ss.length)
    ∧ (step cfg (runEvents cfg e ((ss ++ [v]).map Event.input)) Event.timerFire).searchLog
        = e.searchLog ++ [v]
    ∧ (step cfg (runEvents cfg e ((ss ++ [v]).map Event.input)) Event.timerFire).st.timeoutId
        = none := by
  have h0 := runInputs_keep cfg ss e hd
  have hsplit : runEvents cfg e ((ss ++ [v]).map Event.input)
      = step cfg (runEvents cfg e (ss.map Event.input)) (Event.input v) := by
    simp [runEvents, List.foldl_append]
  have hstep1 : step cfg (runEvents cfg e (ss.map Event.input)) (Event.input v)
      = { runEvents cfg e (ss.map Event.input) with
          st := { (runEvents cfg e (ss.map Event.input)).st with
                  inputValue := v,
                  timeoutId := some (runEvents cfg e (ss.map Event.input)).nextTimerId },
          nextTimerId := (runEvents cfg e (ss.map Event.input)).nextTimerId + 1 } := by
    simp [step, h0.1]
  rw [hsplit, hstep1]
  have hnl : ¬(v.length < cfg.minLength) := Nat.not_lt.mpr hlen
  refine ⟨h0.2.1, rfl, by rw [h0.2.2.2], ?_, ?_⟩
  · simp [step, refreshStart, hv, hnl, h0.2.1]
  · simp [step, refreshStart, hv, hnl]

/-- C4 witness: keystrokes "x" then "xy" under the default settings dispatch
nothing until the single armed timer fires, which dispatches exactly
`searchFn("xy")`. -/
theorem C4_debounce_coalesce_witness :
    (runEvents cfgS initEnv ((["x"] ++ ["xy"]).map Event.input)).searchLog = []
    ∧ (runEvents cfgS initEnv ((["x"] ++ ["xy"]).map Event.input)).st.inputValue = "xy"
    ∧ (runEvents cfgS initEnv ((["x"] ++ ["xy"]).map Event.input)).st.timeoutId = some 2
    ∧ (step cfgS (runEvents cfgS initEnv ((["x"] ++ ["xy"]).map Event.input))
        Event.timerFire).searchLog = ["xy"]
    ∧ (step cfgS (runEvents cfgS initEnv ((["x"] ++ ["xy"]).map Event.input))
        Event.timerFire).st.timeoutId = none :=
  C4_debounce_coalesce cfgS initEnv ["x"] "xy" (by decide) (by decide) (by decide)

/-- C4 counterexample (claim as stated): the keystroke sequence "a" then ""
(the user clears the field) fires one coalesced refresh, and zero search
dispatches occur — not exactly one — because the value after the last
keystroke is empty; the refresh runs `clearFn` instead. -/
theorem C4_debounce_coalesce_cex :
    (runEvents cfgS initEnv [Event.input "a", Event.input "", Event.timerFire]).searchLog = []
    ∧ (runEvents cfgS initEnv [Event.input "a", Event.input "", Event.timerFire]).st.clearLog
        = 1
    ∧ (runEvents cfgS initEnv [Event.input "a", Event.input "", Event.timerFire]).st.timeoutId
        = none := by
  decide

/-- C5: committing the item child at index `i` sets the field's value to
`labelFn` of the item's raw value, hides the list, invokes `selectFn` with
the item and its element exactly once (one appended log entry; the enter and
clear callbacks untouched), marks exactly that child active (hover removed
from it), strips hover/active from every other child, and is a no-op on a
null target or on the list container itself. -/
theorem C5_commit (cfg : SuggestConfig α) (st : SuggestState α) (i : Nat)
    (r : α) (lab mk : String) (hv av : Bool)
    (hget : st.children[i]? = some ⟨ChildData.item r lab mk, hv, av⟩) :
    (select cfg st (SelectTarget.child i)).inputValue = cfg.labelFn r
    ∧ (select cfg st (SelectTarget.child i)).shown = false
    ∧ (select cfg st (SelectTarget.child i)).selectLog = st.selectLog ++ [(r, i)]
    ∧ (select cfg st (SelectTarget.child i)).children[i]?
        = some ⟨ChildData.item r lab mk, false, true⟩
    ∧ (∀ j, j ≠ i → (select cfg st (SelectTarget.child i)).children[j]?
        = st.children[j]?.map (fun c => { c with hover := false, active := false }))
    ∧ (select cfg st (SelectTarget.child i)).enterLog = st.enterLog
    ∧ select cfg st SelectTarget.null = st
    ∧ select cfg st SelectTarget.container = st := by
  have h := select_child_spec cfg st i r lab mk hv av hget
  exact ⟨h.1, h.2.1, h.2.2.1, h.2.2.2.1, h.2.2.2.2.1, h.2.2.2.2.2.1, rfl, rfl⟩

/-- C5 witness: committing item "b" (index 1) of the rendered list
`[a, b, c]` sets the field to "b", hides the list, logs one `selectFn`
call, and marks exactly that element active. -/
theorem C5_commit_witness :
    (select cfgS stABC (SelectTarget.child 1)).inputValue = "b"
    ∧ (select cfgS stABC (SelectTarget.child 1)).shown = false
    ∧ (select cfgS stABC (SelectTarget.child 1)).selectLog = [("b", 1)]
    ∧ (select cfgS stABC (SelectTarget.child 1)).children[1]?
        = some ⟨ChildData.item "b" "b" "b", false, true⟩
    ∧ (select cfgS stABC (SelectTarget.child 1)).children[0]?
        = some ⟨ChildData.item "a" "a" "a", false, false⟩
    ∧ select cfgS stABC SelectTarget.null = stABC
    ∧ select cfgS stABC SelectTarget.container = stABC := by
  have h := C5_commit cfgS stABC 1 "b" "b" "b" false false (by decide)
  refine ⟨h.1, h.2.1, h.2.2.1, h.2.2.2.1, ?_, h.2.2.2.2.2.2.1, h.2.2.2.2.2.2.2⟩
  rw [h.2.2.2.2.1 0 (by decide)]
  decide

/-- Helper for C6: the hover mark after `#moveHover` sits exactly on the
computed next index. -/
theorem moveHover_firstIdx (dir : Dir) (st : SuggestState α)
    (hne : st.children.isEmpty = false)
    (hoth : ∀ j c, st.children[j]? = some c →
      currentIdx st.children ≠ some j → c.hover = false)
    (hcur_lt : ∀ i, currentIdx st.children = some i → i < st.children.length) :
    firstIdx (fun c => c.hover) (moveHover dir st).children
      = some (nextIdx dir st.children.length (currentIdx st.children)) := by
  have hn : 0 < st.children.length := by
    cases hcs : st.children with
    | nil => rw [hcs] at hne; simp at hne
    | cons a tl => simp [hcs]
  have hnext := nextIdx_lt dir st.children.length (currentIdx st.children) hn hcur_lt
  refine firstIdx_of_pointwise _ _ _ ?_ ?_
  · exact moveHover_hover dir st hne hoth
  · rw [moveHover_length]
    exact hnext

/-- C6 (amended): over an open `n`-item list, the arrow keys move the hover
mark through `#moveHover`: with no hover and no active mark, ArrowDown
highlights index 0 and ArrowUp index `n-1`; with the (unique) hover mark at
`i`, ArrowDown moves it to `i+1` wrapping to 0 and ArrowUp to `i-1` wrapping
to `n-1`; with no hover but an active mark whose first occurrence is `i`,
navigation resumes from the active item — ArrowDown highlights `i+1`
(wrapping), not index 0.  The children count is preserved. -/
theorem C6_arrow_navigation (cfg : SuggestConfig α) (st : SuggestState α)
    (hsh : st.shown = true) (hne : st.children.isEmpty = false) :
    (st.children.all (fun c => !c.hover && !c.active) = true →
      firstIdx (fun c => c.hover) (handleKey cfg st Key.arrowDown).1.children = some 0
      ∧ firstIdx (fun c => c.hover) (handleKey cfg st Key.arrowUp).1.children
          = some (st.children.length - 1))
    ∧ (∀ i, firstIdx (fun c => c.hover) st.children = some i →
        (updAt (fun c => { c with hover := false }) i st.children).all
            (fun c => !c.hover) = true →
        firstIdx (fun c => c.hover) (handleKey cfg st Key.arrowDown).1.children
            = some (if i + 1 < st.children.length then i + 1 else 0)
        ∧ firstIdx (fun c => c.hover) (handleKey cfg st Key.arrowUp).1.children
            = some (if i = 0 then st.children.length - 1 else i - 1))
    ∧ (∀ i, st.children.all (fun c => !c.hover) = true →
        firstIdx (fun c => c.active) st.children = some i →
        firstIdx (fun c => c.hover) (handleKey cfg st Key.arrowDown).1.children
            = some (if i + 1 < st.children.length then i + 1 else 0)
        ∧ firstIdx (fun c => c.hover) (handleKey cfg st Key.arrowUp).1.children
            = some (if i = 0 then st.children.length - 1 else i - 1))
    ∧ (handleKey cfg st Key.arrowDown).1.children.length = st.children.length
    ∧ (handleKey cfg st Key.arrowUp).1.children.length = st.children.length := by
  have hkd : (handleKey cfg st Key.arrowDown).1 = moveHover Dir.down st := by
    simp [handleKey, hsh]
  have hku : (handleKey cfg st Key.arrowUp).1 = moveHover Dir.up st := by
    simp [handleKey, hsh]
  refine ⟨?_, ?_, ?_, by rw [hkd, moveHover_length], by rw [hku, moveHover_length]⟩
  · intro hall
    have hhov : st.children.all (fun c => !c.hover) = true := by
      rw [List.all_eq_true] at hall ⊢
      intro c hc
      have h2 := hall c hc
      simp only [Bool.and_eq_true] at h2
      exact h2.1
    have hact : st.children.all (fun c => !c.active) = true := by
      rw [List.all_eq_true] at hall ⊢
      intro c hc
      have h2 := hall c hc
      simp only [Bool.and_eq_true] at h2
      exact h2.2
    have hcur : currentIdx st.children = none := by
      simp [currentIdx, firstIdx_none_of_all _ _ hhov, firstIdx_none_of_all _ _ hact]
    have hoth : ∀ j c, st.children[j]? = some c →
        currentIdx st.children ≠ some j → c.hover = false := by
      intro j c hc _
      have := all_of_getElem? _ _ j c hhov hc
      simpa using this
    have hlt : ∀ i, currentIdx st.children = some i → i < st.children.length := by
      intro i hi
      rw [hcur] at hi
      cases hi
    constructor
    · rw [hkd, moveHover_firstIdx Dir.down st hne hoth hlt, hcur]
      rfl
    · rw [hku, moveHover_firstIdx Dir.up st hne hoth hlt, hcur]
      rfl
  · intro i hfi hclr
    have hcur : currentIdx st.children = some i := by
      simp [currentIdx, hfi]
    have hoth : ∀ j c, st.children[j]? = some c →
        currentIdx st.children ≠ some j → c.hover = false := by
      intro j c hc hne'
      have hji : j ≠ i := by
        intro h
        rw [h] at hne'
        exact hne' hcur
      have hupd : (updAt (fun c => { c with hover := false }) i st.children)[j]?
          = some c := by
        rw [updAt_getElem?, if_neg hji]
        exact hc
      have := all_of_getElem? _ _ j c hclr hupd
      simpa using this
    have hlt : ∀ i', currentIdx st.children = some i' → i' < st.children.length := by
      intro i' hi'
      rw [hcur] at hi'
      cases hi'
      exact firstIdx_lt _ _ _ hfi
    constructor
    · rw [hkd, moveHover_firstIdx Dir.down st hne hoth hlt, hcur]
      rfl
    · rw [hku, moveHover_firstIdx Dir.up st hne hoth hlt, hcur]
      rfl
  · intro i hhov hact
    have hcur : currentIdx st.children = some i := by
      simp [currentIdx, firstIdx_none_of_all _ _ hhov, hact]
    have hoth : ∀ j c, st.children[j]? = some c →
        currentIdx st.children ≠ some j → c.hover = false := by
      intro j c hc _
      have := all_of_getElem? _ _ j c hhov hc
      simpa using this
    have hlt : ∀ i', currentIdx st.children = some i' → i' < st.children.length := by
      intro i' hi'
      rw [hcur] at hi'
      cases hi'
      exact firstIdx_lt _ _ _ hact
    constructor
    · rw [hkd, moveHover_firstIdx Dir.down st hne hoth hlt, hcur]
      rfl
    · rw [hku, moveHover_firstIdx Dir.up st hne hoth hlt, hcur]
      rfl

/-- C6 witness: on the open list `[a, b, c]` with no hover and no active
mark, ArrowDown highlights index 0 and ArrowUp highlights index 2. -/
theorem C6_arrow_navigation_witness :
    firstIdx (fun c => c.hover) (handleKey cfgS stABC Key.arrowDown).1.children = some 0
    ∧ firstIdx (fun c => c.hover) (handleKey cfgS stABC Key.arrowUp).1.children
        = some 2 := by
  have h := (C6_arrow_navigation cfgS stABC (by decide) (by decide)).1 (by decide)
  exact ⟨h.1, h.2⟩

/-- C6 counterexample (claim as stated): on the open list `[a, b, c]` with
no hover mark anywhere — no current highlight — but a (previously committed)
active mark at index 1, ArrowDown puts the highlight on index 2, not on
index 0 as the claim requires. -/
theorem C6_arrow_navigation_cex :
    stActiveMid.children.all (fun c => !c.hover) = true
    ∧ firstIdx (fun c => c.hover) (handleKey cfgS stActiveMid Key.arrowDown).1.children
        = some 2
    ∧ firstIdx (fun c => c.hover) (handleKey cfgS stActiveMid Key.arrowDown).1.children
        ≠ some 0 := by
  decide

/-- C7: while the list is shown, Enter with an `enterFn` configured only
invokes `enterFn` with the current hovered-or-active element's item (null
for none or for the error element) and the element itself, suppressing the
default and performing no commit; otherwise Enter — and Tab always,
regardless of `enterFn` — commits the current hovered-or-active element,
falling back to the list's first child, through `#select`; both keys
suppress the key's default effect, and when the committed child is an item
it is committed exactly once with the field set to its label and the list
hidden. -/
theorem C7_enter_tab (cfg : SuggestConfig α) (st : SuggestState α)
    (hsh : st.shown = true) (hne : st.children.isEmpty = false) :
    (cfg.hasEnterFn = true →
      handleKey cfg st Key.enter
        = ({ st with enterLog := st.enterLog ++ [enterArg st.children] }, true))
    ∧ (cfg.hasEnterFn = false →
      handleKey cfg st Key.enter
        = (select cfg st (SelectTarget.child ((currentIdx st.children).getD 0)), true))
    ∧ handleKey cfg st Key.tab
        = (select cfg st (SelectTarget.child ((currentIdx st.children).getD 0)), true)
    ∧ (∀ r lab mk hv av,
        st.children[(currentIdx st.children).getD 0]?
            = some ⟨ChildData.item r lab mk, hv, av⟩ →
        (handleKey cfg st Key.tab).1.inputValue = cfg.labelFn r
        ∧ (handleKey cfg st Key.tab).1.shown = false
        ∧ (handleKey cfg st Key.tab).1.selectLog
            = st.selectLog ++ [(r, (currentIdx st.children).getD 0)]) := by
  have hek : handleKey cfg st Key.enter = findSelectedEl cfg st true := by
    simp [handleKey, hsh]
  have htk : handleKey cfg st Key.tab = findSelectedEl cfg st false := by
    simp [handleKey, hsh]
  have hsel : ∀ b, (b && cfg.hasEnterFn) = false →
      findSelectedEl cfg st b
        = (select cfg st (SelectTarget.child ((currentIdx st.children).getD 0)), true) := by
    intro b hb
    unfold findSelectedEl
    rw [hb]
    simp only [Bool.false_eq_true, if_false]
    cases hcur : currentIdx st.children with
    | none => simp [hne]
    | some i => simp
  refine ⟨?_, ?_, ?_, ?_⟩
  · intro hE
    rw [hek]
    unfold findSelectedEl
    rw [hE]
    simp
  · intro hE
    rw [hek]
    exact hsel true (by rw [hE, Bool.and_false])
  · rw [htk]
    exact hsel false rfl
  · intro r lab mk hv av hget
    have h := select_child_spec cfg st ((currentIdx st.children).getD 0) r lab mk hv av hget
    rw [htk, hsel false rfl]
    exact ⟨h.1, h.2.1, h.2.2.1⟩

/-- C7 witness: on the open list `[a, b, c]` with no marks, Enter with an
`enterFn` configured logs one `enterFn` call and commits nothing; Tab under
the default settings commits the first item "a" and suppresses the
default. -/
theorem C7_enter_tab_witness :
    handleKey cfgE stABC Key.enter
      = ({ stABC with enterLog := [enterArg stABC.children] }, true)
    ∧ handleKey cfgS stABC Key.tab
      = (select cfgS stABC (SelectTarget.child ((currentIdx stABC.children).getD 0)), true)
    ∧ (handleKey cfgS stABC Key.tab).1.inputValue = "a"
    ∧ (handleKey cfgS stABC Key.tab).1.shown = false
    ∧ (handleKey cfgS stABC Key.tab).1.selectLog = [("a", 0)] := by
  have hE := (C7_enter_tab cfgE stABC (by decide) (by decide)).1 (by decide)
  have hT := (C7_enter_tab cfgS stABC (by decide) (by decide)).2.2.1
  have hS := (C7_enter_tab cfgS stABC (by decide) (by decide)).2.2.2
      "a" "a" "a" false false (by decide)
  exact ⟨hE, hT, hS.1, hS.2.1, hS.2.2⟩

/-- C8: every `searchFn` failure — with no staleness guard, whatever the
relation between the captured query and the field's current value — clears
the searching indicator, replaces the list content with the error element
carrying the failure's message, shows the list, and leaves the field's value
unchanged; and the `search.ajax`-built function classifies a redirected
response whose URL ends in the login suffix as the rejection "You have been
logged out.". -/
theorem C8_error_rendering (cfg : SuggestConfig α) (e : EnvState α) (id : Nat)
    (q les : String) (r : FetchResponse α)
    (hp : e.pending.find? (fun p => p.1 == id) = some (id, q))
    (hred : r.redirected = true) (hurl : endsWithS r.url les = true) :
    ajaxResult les r = Except.error "You have been logged out."
    ∧ ∀ msg,
      (step cfg e (Event.resolve id (Except.error msg))).st.spinnerVisible = false
      ∧ (step cfg e (Event.resolve id (Except.error msg))).st.children
          = [⟨ChildData.error msg, false, false⟩]
      ∧ (step cfg e (Event.resolve id (Except.error msg))).st.shown = true
      ∧ (step cfg e (Event.resolve id (Except.error msg))).st.inputValue
          = e.st.inputValue := by
  constructor
  · simp [ajaxResult, hred, hurl]
  · intro msg
    have hstep : step cfg e (Event.resolve id (Except.error msg))
        = { e with pending := e.pending.filter (fun p => p.1 != id),
                   st := refreshResolve cfg e.st q (Except.error msg) } := by
      simp [step, hp]
    rw [hstep]
    exact ⟨rfl, rfl, rfl, rfl⟩

/-- C8 witness: an in-flight search (captured query "b", field since moved
to "a" — stale) whose promise rejects with the login-redirect message still
renders the error element and leaves the field at "a"; the ajax factory
yields exactly that rejection for a redirect to a URL ending in "/login". -/
theorem C8_error_rendering_witness :
    ajaxResult "/login"
        ({ redirected := true, url := "x/login", ok := false, body := none }
          : FetchResponse String)
      = Except.error "You have been logged out."
    ∧ (step cfgS envStale (Event.resolve 1 (Except.error "You have been logged out."))).st.children
        = [⟨ChildData.error "You have been logged out.", false, false⟩]
    ∧ (step cfgS envStale (Event.resolve 1 (Except.error "You have been logged out."))).st.shown
        = true
    ∧ (step cfgS envStale (Event.resolve 1 (Except.error "You have been logged out."))).st.inputValue
        = "a" := by
  have h := C8_error_rendering cfgS envStale 1 "b" "/login"
      ({ redirected := true, url := "x/login", ok := false, body := none }
        : FetchResponse String)
      (by decide) (by decide) (by decide)
  have h2 := h.2 "You have been logged out."
  exact ⟨h.1, h2.2.1, h2.2.2.1, h2.2.2.2⟩

/-- Helper for C9: the prior instance bound to `el` is recorded as destroyed
by the constructor's rebinding path. -/
theorem mem_destroyEl_destroyed (s : RegState) (el i : Nat)
    (hl : lookupEl s.regMap el = some i) :
    i ∈ (destroyEl s el).destroyedInsts := by
  have hmem := lookupEl_mem s.regMap el i hl
  simp only [destroyEl]
  refine List.mem_append_right _ ?_
  exact List.mem_map_of_mem _ (List.mem_filter.mpr ⟨hmem, by simp⟩)

/-- Helper for C9: after the rebinding constructor registers the fresh
instance, `el` resolves to it. -/
theorem lookupEl_after_rebind (s : RegState) (el n : Nat) :
    lookupEl ((destroyEl s el).regMap ++ [(el, n)]) el = some n := by
  unfold lookupEl
  have hnone : (destroyEl s el).regMap.find? (fun p => p.1 == el) = none := by
    rw [List.find?_eq_none]
    intro p hp
    have hpf := List.of_mem_filter hp
    simpa using hpf
  rw [List.find?_append, hnone]
  simp

/-- Helper for C9: the full registry effect of constructing on an
already-bound element with a valid `searchFn`. -/
theorem construct_on_bound (s : RegState) (el i : Nat)
    (hl : lookupEl s.regMap el = some i) :
    i ∈ (applyReg s (RegOp.construct (some el) true)).destroyedInsts
    ∧ lookupEl (applyReg s (RegOp.construct (some el) true)).regMap el
        = some s.nextInst := by
  simp only [applyReg, hl]
  by_cases hm : (destroyEl s el).regMap.isEmpty
  · simp only [hm, if_pos, if_true]
    constructor
    · exact mem_destroyEl_destroyed s el i hl
    · exact lookupEl_after_rebind s el s.nextInst
  · simp only [hm, Bool.false_eq_true, if_false]
    constructor
    · exact mem_destroyEl_destroyed s el i hl
    · exact lookupEl_after_rebind s el s.nextInst

/-- C9: after any sequence of constructor and `destroy()` calls starting
from a fresh page, the shared document-level dismissal listener is installed
exactly while the registry of live instances is non-empty, no input element
is bound to two instances at once, and constructing on an already-bound
element (with a valid `searchFn`) destroys the prior instance and binds the
element to the fresh one. -/
theorem C9_registry_invariant (ops : List RegOp) :
    ((runReg ops).docListener = true ↔ (runReg ops).regMap ≠ [])
    ∧ ((runReg ops).regMap.map Prod.fst).Nodup
    ∧ (∀ el i, lookupEl (runReg ops).regMap el = some i →
        i ∈ (applyReg (runReg ops) (RegOp.construct (some el) true)).destroyedInsts
        ∧ lookupEl (applyReg (runReg ops) (RegOp.construct (some el) true)).regMap el
            = some (runReg ops).nextInst) := by
  obtain ⟨hdoc, hnd⟩ := regInv_run ops
  refine ⟨?_, hnd, ?_⟩
  · rw [hdoc]
    cases hm : (runReg ops).regMap with
    | nil => simp
    | cons a tl => simp
  · intro el i hl
    exact construct_on_bound (runReg ops) el i hl

/-- C9 witness: binding element 5, then rebinding it, destroys instance 0,
rebinds element 5 to instance 1, keeps the listener installed, and
destroying the last instance removes the listener. -/
theorem C9_registry_invariant_witness :
    ((runReg [RegOp.construct (some 5) true]).docListener = true
      ↔ (runReg [RegOp.construct (some 5) true]).regMap ≠ [])
    ∧ (0 ∈ (applyReg (runReg [RegOp.construct (some 5) true])
          (RegOp.construct (some 5) true)).destroyedInsts
        ∧ lookupEl (applyReg (runReg [RegOp.construct (some 5) true])
            (RegOp.construct (some 5) true)).regMap 5
            = some (runReg [RegOp.construct (some 5) true]).nextInst)
    ∧ (runReg [RegOp.construct (some 5) true]).docListener = true
    ∧ (runReg [RegOp.construct (some 5) true, RegOp.destroy 5]).docListener = false := by
  have h := C9_registry_invariant [RegOp.construct (some 5) true]
  exact ⟨h.1, h.2.2 5 0 (by decide), by decide, by decide⟩

/-- C10: a constructor call whose element argument is null (or a selector
matching nothing) only logs one console error and returns: the registry,
the shared dismissal listener, the set of destroyed instances and the
instance-id source are all left exactly as they were, whatever the
`searchFn` option — no prior instance is disturbed. -/
theorem C10_null_element (s : RegState) (v : Bool) :
    (applyReg s (RegOp.construct none v)).regMap = s.regMap
    ∧ (applyReg s (RegOp.construct none v)).docListener = s.docListener
    ∧ (applyReg s (RegOp.construct none v)).destroyedInsts = s.destroyedInsts
    ∧ (applyReg s (RegOp.construct none v)).nextInst = s.nextInst
    ∧ (applyReg s (RegOp.construct none v)).errLog = s.errLog + 1 :=
  ⟨rfl, rfl, rfl, rfl, rfl⟩
